import Mathlib

/-!
Verification of the Trustbook `esign-agent-trust` adapter
(`scripts/esign_trustbook_adapter.js`) against its design specification.

The adapter is a Node.js script; we shallowly embed the relevant parts:

* JS strings / UTF-8 `Buffer`s are modelled as Lean `String`s, with the byte
  view recovered through `String.toUTF8` where a claim speaks about bytes
  (UTF-8 encoding is a deterministic function of the string, so string
  equality of messages coincides with byte equality of the buffers).
* `String.prototype.toUpperCase` is modelled by `jsToUpperCase`
  (character-wise ASCII upper-casing; the HTTP verbs in play are ASCII).
* Effects of `TrustbookEsignClient.request` — the clock (`Date.now()`),
  the nonce generator (`crypto.randomUUID()`), the external key-custody
  SDK (`sdk.load`, `sdk.sign`), SHA-256 and `JSON.stringify` — are passed
  in explicitly as parameters, so the request pipeline becomes a pure
  function from those inputs to either an error or the outgoing HTTP
  request (`RequestOutcome`).  A `RequestOutcome` is only produced on the
  success path, so `Except.error` results model "the action aborted before
  any HTTP request was issued".
-/

/-- Model of JS `String.prototype.toUpperCase` as used on HTTP verbs:
character-wise upper-casing (`Char.toUpper` agrees with JS on ASCII). -/
def jsToUpperCase (s : String) : String :=
  ⟨s.data.map Char.toUpper⟩

/-- Embedding of `buildMb2Message` (adapter lines 175-180) at the string
level; the JS function returns `Buffer.from(..., "utf-8")` of exactly this
template-literal concatenation. -/
def buildMb2Message (ts nonce agentName method pathOnly bodySha256 : String) : String :=
  "MB2\n" ++ ts ++ "\n" ++ nonce ++ "\n" ++ agentName ++ "\n" ++
    jsToUpperCase method ++ "\n" ++ pathOnly ++ "\n" ++ bodySha256 ++ "\n"

/-- The byte view of `buildMb2Message`: the JS function returns the UTF-8
bytes of the canonical string. -/
def buildMb2MessageBytes (ts nonce agentName method pathOnly bodySha256 : String) : ByteArray :=
  (buildMb2Message ts nonce agentName method pathOnly bodySha256).toUTF8

/-- Modelled from the spec: §4.1 "Failure mode: building fails only if any
required field is empty/absent (fails with `MalformedSigningInput`)."
No such check exists in the source (`buildMb2Message` is check-free), so
this validating builder is reconstructed from the spec's words for
comparison with the code's builder. -/
def buildMb2MessageSpec (ts nonce agentName method pathOnly bodySha256 : String) :
    Except String String :=
  if ts = "" ∨ nonce = "" ∨ agentName = "" ∨ method = "" ∨ pathOnly = "" ∨ bodySha256 = "" then
    Except.error "MalformedSigningInput"
  else
    Except.ok (buildMb2Message ts nonce agentName method pathOnly bodySha256)

/-- A string with no embedded newline (the spec's well-formedness condition
on the individual canonical-message fields). -/
def noNL (s : String) : Prop := '\n' ∉ s.data

instance (s : String) : Decidable (noNL s) := by
  unfold noNL
  infer_instance

/-- Two strings are equal as soon as their character lists are. -/
theorem str_ext {a b : String} (h : a.data = b.data) : a = b := by
  cases a
  cases b
  exact congrArg String.mk h

/-- Cancellation of the first newline-terminated field of a line-oriented
message: if neither `a` nor `b` contains a newline, then
`a ++ '\n' :: xs = b ++ '\n' :: ys` forces `a = b` and `xs = ys`. -/
theorem append_nl_cancel : ∀ {a b xs ys : List Char},
    '\n' ∉ a → '\n' ∉ b → a ++ '\n' :: xs = b ++ '\n' :: ys → a = b ∧ xs = ys := by
  intro a
  induction a with
  | nil =>
    intro b xs ys _ hb h
    cases b with
    | nil =>
      simp only [List.nil_append] at h
      injection h with _ h2
      exact ⟨rfl, h2⟩
    | cons c bt =>
      exfalso
      simp only [List.nil_append, List.cons_append, List.cons.injEq] at h
      exact hb (by rw [h.1]; exact List.mem_cons_self c bt)
  | cons c ct ih =>
    intro b xs ys ha hb h
    cases b with
    | nil =>
      exfalso
      simp only [List.cons_append, List.nil_append, List.cons.injEq] at h
      exact ha (by rw [← h.1]; exact List.mem_cons_self c ct)
    | cons d dt =>
      simp only [List.cons_append, List.cons.injEq] at h
      obtain ⟨hcd, htail⟩ := h
      have ha' : '\n' ∉ ct := fun hm => ha (List.mem_cons_of_mem _ hm)
      have hb' : '\n' ∉ dt := fun hm => hb (List.mem_cons_of_mem _ hm)
      obtain ⟨h1, h2⟩ := ih ha' hb' htail
      exact ⟨by rw [hcd, h1], h2⟩

/-- The character list of a canonical message, in fully right-nested form:
a fixed `MB2` prefix line followed by the six newline-terminated fields. -/
theorem buildMb2Message_data (ts nonce agentName method pathOnly bodySha256 : String) :
    (buildMb2Message ts nonce agentName method pathOnly bodySha256).data =
      'M' :: 'B' :: '2' :: '\n' ::
        (ts.data ++ '\n' :: (nonce.data ++ '\n' :: (agentName.data ++ '\n' ::
          ((jsToUpperCase method).data ++ '\n' ::
            (pathOnly.data ++ '\n' :: (bodySha256.data ++ '\n' :: [])))))) := by
  simp only [buildMb2Message, String.data_append, List.append_assoc]
  rfl

/-- C1: for every input tuple, `buildMb2Message` returns exactly the UTF-8
bytes of the canonical concatenation
`MB2 \n ts \n nonce \n agent_name \n uppercase(method) \n path \n body_sha256_b64 \n`
(trailing newline after the digest included), and it is deterministic:
identical inputs give byte-identical output. -/
theorem buildMb2Message_canonical_form (ts nonce agentName method pathOnly bodySha256 : String) :
    buildMb2MessageBytes ts nonce agentName method pathOnly bodySha256 =
      ("MB2\n" ++ ts ++ "\n" ++ nonce ++ "\n" ++ agentName ++ "\n" ++
        jsToUpperCase method ++ "\n" ++ pathOnly ++ "\n" ++ bodySha256 ++ "\n").toUTF8 ∧
    (buildMb2Message ts nonce agentName method pathOnly bodySha256).data =
      'M' :: 'B' :: '2' :: '\n' ::
        (ts.data ++ '\n' :: (nonce.data ++ '\n' :: (agentName.data ++ '\n' ::
          ((jsToUpperCase method).data ++ '\n' ::
            (pathOnly.data ++ '\n' :: (bodySha256.data ++ '\n' :: [])))))) ∧
    buildMb2MessageBytes ts nonce agentName method pathOnly bodySha256 =
      buildMb2MessageBytes ts nonce agentName method pathOnly bodySha256 :=
  ⟨rfl, buildMb2Message_data ts nonce agentName method pathOnly bodySha256, rfl⟩

/-- C3 counterexample: `buildMb2Message` is not injective over unrestricted
string inputs.  Two independent collisions at concrete inputs: the method is
case-folded (`"get"` and `"GET"` collide), and an embedded newline shifts a
field boundary (`ts = "x\ny", nonce = "z"` collides with
`ts = "x", nonce = "y\nz"`). -/
theorem buildMb2Message_not_injective :
    ((("1", "n1", "A", "get", "/p", "d") :
        String × String × String × String × String × String) ≠
        ("1", "n1", "A", "GET", "/p", "d") ∧
      buildMb2Message "1" "n1" "A" "get" "/p" "d" =
        buildMb2Message "1" "n1" "A" "GET" "/p" "d") ∧
    ((("x\ny", "z", "A", "GET", "/p", "d") :
        String × String × String × String × String × String) ≠
        ("x", "y\nz", "A", "GET", "/p", "d") ∧
      buildMb2Message "x\ny" "z" "A" "GET" "/p" "d" =
        buildMb2Message "x" "y\nz" "A" "GET" "/p" "d") :=
  ⟨⟨by decide, rfl⟩, ⟨by decide, rfl⟩⟩

/-- C3 (amended): the canonical encoding is injective over the inputs the
protocol actually admits — tuples whose six fields contain no embedded
newline and whose method is unchanged by upper-casing.  (Unrestricted, the
encoding is not injective: see the counterexample.) -/
theorem buildMb2Message_injective_of_noNL
    (ts₁ n₁ a₁ m₁ p₁ d₁ ts₂ n₂ a₂ m₂ p₂ d₂ : String)
    (h₁ : noNL ts₁ ∧ noNL n₁ ∧ noNL a₁ ∧ noNL m₁ ∧ noNL p₁ ∧ noNL d₁)
    (h₂ : noNL ts₂ ∧ noNL n₂ ∧ noNL a₂ ∧ noNL m₂ ∧ noNL p₂ ∧ noNL d₂)
    (hm₁ : jsToUpperCase m₁ = m₁) (hm₂ : jsToUpperCase m₂ = m₂)
    (heq : buildMb2Message ts₁ n₁ a₁ m₁ p₁ d₁ = buildMb2Message ts₂ n₂ a₂ m₂ p₂ d₂) :
    ts₁ = ts₂ ∧ n₁ = n₂ ∧ a₁ = a₂ ∧ m₁ = m₂ ∧ p₁ = p₂ ∧ d₁ = d₂ := by
  obtain ⟨hts₁, hn₁, ha₁, hm₁nl, hp₁, hd₁⟩ := h₁
  obtain ⟨hts₂, hn₂, ha₂, hm₂nl, hp₂, hd₂⟩ := h₂
  have hdata := congrArg String.data heq
  rw [buildMb2Message_data, buildMb2Message_data, hm₁, hm₂] at hdata
  simp only [List.cons.injEq, true_and] at hdata
  obtain ⟨hts, rest₁⟩ := append_nl_cancel hts₁ hts₂ hdata
  obtain ⟨hn, rest₂⟩ := append_nl_cancel hn₁ hn₂ rest₁
  obtain ⟨ha, rest₃⟩ := append_nl_cancel ha₁ ha₂ rest₂
  obtain ⟨hm, rest₄⟩ := append_nl_cancel hm₁nl hm₂nl rest₃
  obtain ⟨hp, rest₅⟩ := append_nl_cancel hp₁ hp₂ rest₄
  obtain ⟨hd, _⟩ := append_nl_cancel hd₁ hd₂ rest₅
  exact ⟨str_ext hts, str_ext hn, str_ext ha, str_ext hm, str_ext hp, str_ext hd⟩

/-- C3 witness: the amended injectivity theorem applied at a concrete
newline-free, upper-case-method input pair — the spec's §8 scenario
(`ts=1700000000`, `nonce="abc123"`, `POST /api/v1/projects/p1/posts`). -/
theorem buildMb2Message_injective_of_noNL_witness :
    ("1700000000" : String) = "1700000000" ∧ ("abc123" : String) = "abc123" ∧
      ("A" : String) = "A" ∧ ("POST" : String) = "POST" ∧
      ("/api/v1/projects/p1/posts" : String) = "/api/v1/projects/p1/posts" ∧
      ("dGVzdA==" : String) = "dGVzdA==" :=
  buildMb2Message_injective_of_noNL "1700000000" "abc123" "A" "POST"
    "/api/v1/projects/p1/posts" "dGVzdA==" "1700000000" "abc123" "A" "POST"
    "/api/v1/projects/p1/posts" "dGVzdA=="
    (by decide) (by decide) (by decide) (by decide) rfl

/-- C4 counterexample: with every required field empty, the spec's §4.1
failure mode demands a `MalformedSigningInput` error, but the code's builder
performs no check at all and returns the bare canonical skeleton. -/
theorem buildMb2Message_no_emptiness_check :
    buildMb2MessageSpec "" "" "" "" "" "" = Except.error "MalformedSigningInput" ∧
    buildMb2Message "" "" "" "" "" "" = "MB2\n\n\n\n\n\n\n" :=
  ⟨rfl, rfl⟩

/-- C4 (amended): the code's builder never fails — it performs no emptiness
validation and succeeds on every input.  On inputs where every field is
non-empty it produces exactly what the spec's validating builder accepts;
on inputs with an empty field, where the spec-modelled builder fails with
`MalformedSigningInput`, the code still returns the canonical
concatenation. -/
theorem buildMb2Message_never_fails (ts nonce agentName method pathOnly bodySha256 : String) :
    ((ts ≠ "" ∧ nonce ≠ "" ∧ agentName ≠ "" ∧ method ≠ "" ∧ pathOnly ≠ "" ∧ bodySha256 ≠ "") →
      buildMb2MessageSpec ts nonce agentName method pathOnly bodySha256 =
        Except.ok (buildMb2Message ts nonce agentName method pathOnly bodySha256)) ∧
    ((ts = "" ∨ nonce = "" ∨ agentName = "" ∨ method = "" ∨ pathOnly = "" ∨ bodySha256 = "") →
      buildMb2MessageSpec ts nonce agentName method pathOnly bodySha256 =
        Except.error "MalformedSigningInput" ∧
      buildMb2Message ts nonce agentName method pathOnly bodySha256 =
        "MB2\n" ++ ts ++ "\n" ++ nonce ++ "\n" ++ agentName ++ "\n" ++
          jsToUpperCase method ++ "\n" ++ pathOnly ++ "\n" ++ bodySha256 ++ "\n") := by
  constructor
  · intro h
    obtain ⟨h1, h2, h3, h4, h5, h6⟩ := h
    simp [buildMb2MessageSpec, h1, h2, h3, h4, h5, h6]
  · intro h
    refine ⟨?_, rfl⟩
    simp only [buildMb2MessageSpec, if_pos h]

/-- C4 witness: the amended theorem evaluated at an all-non-empty input. -/
theorem buildMb2Message_never_fails_witness :
    buildMb2MessageSpec "1" "n1" "A" "GET" "/p" "d" =
      Except.ok (buildMb2Message "1" "n1" "A" "GET" "/p" "d") :=
  (buildMb2Message_never_fails "1" "n1" "A" "GET" "/p" "d").1
    ⟨by decide, by decide, by decide, by decide, by decide, by decide⟩

/-- Identifiers bound at the top level of `scripts/esign_trustbook_adapter.js`
(the `require` bindings, the function and class declarations). -/
def adapterTopLevelBindings : List String :=
  ["crypto", "path", "resolveEsignModule", "sha256Base64", "buildMb2Message",
   "generateAndStoreKeyPairWithEsign", "TrustbookEsignClient", "rawApiRequest", "runCli"]

/-- Identifiers referenced by the shorthand properties of the adapter's
final `module.exports` object literal (lines 534-538). -/
def moduleExportsIdentifiers : List String :=
  ["TrustbookEsignClient", "buildMb1Message", "sha256Base64"]

/-- How evaluating the adapter module ends: the process exits during
evaluation (`process.exit` reached), a synchronous exception aborts
evaluation, or evaluation completes with the exported identifiers. -/
inductive ModuleEvalResult where
  | exited (code : Nat)
  | threw (err : String)
  | completed (exports : List String)

deriving instance DecidableEq for ModuleEvalResult

/-- The commands on which `runCli` prints usage and calls `process.exit(0)`
(adapter lines 345-362); `process.argv[2] || ""` maps a missing command to
the empty string. -/
def cliUsageCommands : List String := ["", "help", "--help", "-h"]

/-- Evaluating the adapter module.  The statement sequence is: declarations,
then the `require.main`-guarded `runCli().catch(...)` call (lines 526-532),
then the `module.exports` assignment (lines 534-538).  `runCli` is an async
function, so its body runs synchronously up to its first `await`: on the
usage branch it reaches `process.exit(0)` synchronously, terminating the
process before the exports assignment; on every other command its
synchronous prefix either suspends at an `await` or rejects its promise (a
`throw` inside an async function does not raise synchronously), and module
evaluation proceeds to the exports assignment.  That assignment reads each
shorthand-property identifier from the module scope; reading an identifier
bound nowhere throws a `ReferenceError` synchronously, aborting
evaluation. -/
def evaluateAdapterModule (isMain : Bool) (cmd : String) : ModuleEvalResult :=
  if isMain && cliUsageCommands.contains cmd then
    ModuleEvalResult.exited 0
  else
    match moduleExportsIdentifiers.find? (fun n => ! adapterTopLevelBindings.contains n) with
    | some n => ModuleEvalResult.threw ("ReferenceError: " ++ n ++ " is not defined")
    | none => ModuleEvalResult.completed moduleExportsIdentifiers

/-- C9 counterexample: a CLI run with no command (`process.argv[2]` absent)
reaches `process.exit(0)` on the usage branch of `runCli` before the
`module.exports` assignment executes, so that run exits with status 0 and
throws no `ReferenceError` — refuting the claim's "always throws". -/
theorem adapter_cli_usage_exits_without_error :
    evaluateAdapterModule true "" = ModuleEvalResult.exited 0 ∧
    evaluateAdapterModule true "" ≠
      ModuleEvalResult.threw "ReferenceError: buildMb1Message is not defined" :=
  ⟨rfl, by decide⟩

/-- C9 (amended): evaluating the adapter module never completes.  Importing
it as a library always throws a `ReferenceError` (the `module.exports`
object references `buildMb1Message`, which is defined nowhere in the file —
the builder is named `buildMb2Message`), and so does any CLI run whose
command is not empty/`help`/`--help`/`-h`; a CLI run with no command or a
help flag instead exits with status 0 from the usage branch of `runCli`
before the exports assignment executes, without a `ReferenceError`. -/
theorem adapter_module_eval_reference_error (isMain : Bool) (cmd : String) :
    (isMain = false →
      evaluateAdapterModule isMain cmd =
        ModuleEvalResult.threw "ReferenceError: buildMb1Message is not defined") ∧
    (cliUsageCommands.contains cmd = false →
      evaluateAdapterModule isMain cmd =
        ModuleEvalResult.threw "ReferenceError: buildMb1Message is not defined") ∧
    (isMain = true → cliUsageCommands.contains cmd = true →
      evaluateAdapterModule isMain cmd = ModuleEvalResult.exited 0) ∧
    (∀ ex, evaluateAdapterModule isMain cmd ≠ ModuleEvalResult.completed ex) := by
  refine ⟨?_, ?_, ?_, ?_⟩
  · intro hm
    subst hm
    rfl
  · intro hcmd
    rw [evaluateAdapterModule, hcmd]
    cases isMain <;> rfl
  · intro hm hcmd
    subst hm
    rw [evaluateAdapterModule, hcmd]
    rfl
  · intro ex hcontra
    rw [evaluateAdapterModule] at hcontra
    cases hm : (isMain && cliUsageCommands.contains cmd) <;>
      rw [hm] at hcontra <;>
      exact ModuleEvalResult.noConfusion hcontra

/-- C9 witness: the amended characterization evaluated on a library import
(and, separately through the other conjunct, on a CLI run with a real
command): both throw the `ReferenceError` for `buildMb1Message`. -/
theorem adapter_module_eval_reference_error_witness :
    evaluateAdapterModule false "" =
      ModuleEvalResult.threw "ReferenceError: buildMb1Message is not defined" ∧
    evaluateAdapterModule true "gen-keys" =
      ModuleEvalResult.threw "ReferenceError: buildMb1Message is not defined" :=
  ⟨(adapter_module_eval_reference_error false "").1 rfl,
   (adapter_module_eval_reference_error true "gen-keys").2.1 rfl⟩

/-- Outgoing HTTP request as handed to `fetch` (method, full URL, headers,
optional body text). -/
structure HttpRequest where
  method : String
  url : String
  headers : List (String × String)
  body : Option String

deriving instance DecidableEq for HttpRequest

/-- Everything `TrustbookEsignClient.request` has produced by the moment it
issues the HTTP request: the envelope values (`ts`, `nonce`), the body
digest, the canonical message, the signature and the request given to
`fetch`.  Produced only on the success path. -/
structure RequestOutcome where
  ts : String
  nonce : String
  bodySha256 : String
  message : String
  signature : String
  sent : HttpRequest

deriving instance DecidableEq for RequestOutcome

/-- State of a `TrustbookEsignClient` instance (adapter lines 201-215):
the constructor-validated configuration fields plus the `loaded` flag. -/
structure TrustbookEsignClient where
  baseUrl : String
  apiKey : String
  agentId : String
  agentName : String
  signatureAlg : String
  loaded : Bool

deriving instance DecidableEq for TrustbookEsignClient

/-- JS falsiness of an optional string argument: `undefined` (absent) and
the empty string are falsy, every other string is truthy. -/
def jsFalsy (v : Option String) : Bool :=
  match v with
  | none => true
  | some s => s == ""

/-- Model of `baseUrl.replace(/\/+$/, "")`: strip every trailing slash. -/
def stripTrailingSlashes (s : String) : String :=
  ⟨(s.data.reverse.dropWhile (fun c => c == '/')).reverse⟩

/-- Embedding of the `TrustbookEsignClient` constructor (adapter lines
201-215).  In statement order: first the presence/truthiness validation of
the four required fields (line 203, throws if any is falsy), then the
`resolveEsignModule()` / `new EsignAgentTrust(sdkConfig)` call (lines
207-208) — `resolveEsignModule` (lines 153-169) is an explicit throw path
when the `esign-agent-trust` module cannot be loaded, modelled by the
`resolveEsign` parameter — and only then are the fields stored (trailing
slashes stripped from `baseUrl`) with `loaded = false`.  `signatureAlg`
defaults to `"rsa-v1_5-sha256"` at call sites. -/
def mkTrustbookEsignClient (resolveEsign : Except String Unit)
    (baseUrl apiKey agentId agentName : Option String)
    (signatureAlg : String) : Except String TrustbookEsignClient :=
  if jsFalsy baseUrl || jsFalsy apiKey || jsFalsy agentId || jsFalsy agentName then
    Except.error "baseUrl/apiKey/agentId/agentName 不能为空"
  else
    match resolveEsign with
    | Except.error e => Except.error e
    | Except.ok _ =>
      Except.ok
        { baseUrl := stripTrailingSlashes (baseUrl.getD "")
          apiKey := apiKey.getD ""
          agentId := agentId.getD ""
          agentName := agentName.getD ""
          signatureAlg := signatureAlg
          loaded := false }

/-- Model of the ternary `bodyObject === undefined ? "" : JSON.stringify(bodyObject)`
(adapter line 244); `stringify` abstracts `JSON.stringify`. -/
def jsBodyText {α : Type} (stringify : α → String) (bodyObject : Option α) : String :=
  match bodyObject with
  | none => ""
  | some o => stringify o

/-- Embedding of `TrustbookEsignClient.request` (adapter lines 239-288) up
to the point where `fetch` is called.  Ambient effects are parameters:
`sdkLoadOk` is what `sdk.load(agentId)` returns (consulted only when the
client is not yet loaded; a `false` answer throws, modelled as
`Except.error`), `sdkSign` is `sdk.sign` (which may throw), `sha256b64`
abstracts `sha256Base64` applied to the UTF-8 bytes of its argument,
`stringify` abstracts `JSON.stringify`, `nowMs` is `Date.now()` and `uuid`
is `crypto.randomUUID()`.  Note the interface takes no externally supplied
`ts` or `nonce`: both are derived inside the call.  The HTTP response
handling after `fetch` involves no signing state and is not modelled. -/
def TrustbookEsignClient.request {α : Type} (c : TrustbookEsignClient)
    (sdkLoadOk : Bool) (sdkSign : String → Except String String)
    (sha256b64 : String → String) (stringify : α → String)
    (nowMs : Nat) (uuid : String)
    (method apiPath : String) (bodyObject : Option α) : Except String RequestOutcome :=
  if !c.loaded && !sdkLoadOk then
    Except.error ("未找到本地凭证，agentId=" ++ c.agentId ++
      "。请先完成证书导入并确保证书文件/私钥都能被 sdk.load(agentId) 找到。")
  else
    let bodyText := jsBodyText stringify bodyObject
    let ts := toString (nowMs / 1000)
    let nonce := uuid
    let bodySha256 := sha256b64 bodyText
    let msg := buildMb2Message ts nonce c.agentName method apiPath bodySha256
    match sdkSign msg with
    | Except.error e => Except.error e
    | Except.ok signature =>
      let headersBase : List (String × String) :=
        [("Authorization", "Bearer " ++ c.apiKey),
         ("X-MB-Signature", signature),
         ("X-MB-Signature-Alg", c.signatureAlg),
         ("X-MB-Signature-Ts", ts),
         ("X-MB-Signature-Nonce", nonce)]
      let headers := match bodyObject with
        | none => headersBase
        | some _ => headersBase ++ [("Content-Type", "application/json")]
      Except.ok
        { ts := ts
          nonce := nonce
          bodySha256 := bodySha256
          message := msg
          signature := signature
          sent :=
            { method := method
              url := c.baseUrl ++ apiPath
              headers := headers
              body := match bodyObject with
                | none => none
                | some _ => some bodyText } }

/-- Inversion of a successful `request`: every component of the outcome in
terms of the call's inputs, plus the facts that the identity was loaded and
the signing call succeeded. -/
theorem request_ok_inv {α : Type} {c : TrustbookEsignClient}
    {sdkLoadOk : Bool} {sdkSign : String → Except String String}
    {sha256b64 : String → String} {stringify : α → String}
    {nowMs : Nat} {uuid method apiPath : String} {bodyObject : Option α}
    {out : RequestOutcome}
    (h : c.request sdkLoadOk sdkSign sha256b64 stringify nowMs uuid method apiPath
      bodyObject = Except.ok out) :
    (c.loaded = true ∨ sdkLoadOk = true) ∧
    sdkSign out.message = Except.ok out.signature ∧
    out.ts = toString (nowMs / 1000) ∧
    out.nonce = uuid ∧
    out.bodySha256 = sha256b64 (jsBodyText stringify bodyObject) ∧
    out.message = buildMb2Message out.ts out.nonce c.agentName method apiPath out.bodySha256 ∧
    out.sent.method = method ∧
    out.sent.url = c.baseUrl ++ apiPath ∧
    out.sent.body = bodyObject.map (fun _ => jsBodyText stringify bodyObject) ∧
    out.sent.headers =
      ([("Authorization", "Bearer " ++ c.apiKey),
        ("X-MB-Signature", out.signature),
        ("X-MB-Signature-Alg", c.signatureAlg),
        ("X-MB-Signature-Ts", out.ts),
        ("X-MB-Signature-Nonce", out.nonce)] ++
       (if bodyObject.isSome then [("Content-Type", "application/json")] else [])) := by
  rw [TrustbookEsignClient.request] at h
  cases hcl : c.loaded with
  | false =>
    cases hlo : sdkLoadOk with
    | false =>
      rw [hcl, hlo] at h
      simp at h
    | true =>
      rw [hcl, hlo] at h
      simp only [Bool.not_true, Bool.and_false, Bool.false_and, if_neg] at h
      cases hs : sdkSign (buildMb2Message (toString (nowMs / 1000)) uuid c.agentName method
          apiPath (sha256b64 (jsBodyText stringify bodyObject))) with
      | error e =>
        rw [if_neg (by simp)] at h
        simp only [hs] at h
        exact absurd h (by simp)
      | ok sig =>
        rw [if_neg (by simp)] at h
        simp only [hs] at h
        rw [Except.ok.injEq] at h
        subst h
        cases bodyObject with
        | none => exact ⟨Or.inr rfl, hs, rfl, rfl, rfl, rfl, rfl, rfl, rfl, rfl⟩
        | some o => exact ⟨Or.inr rfl, hs, rfl, rfl, rfl, rfl, rfl, rfl, rfl, rfl⟩
  | true =>
    rw [hcl] at h
    cases hs : sdkSign (buildMb2Message (toString (nowMs / 1000)) uuid c.agentName method
        apiPath (sha256b64 (jsBodyText stringify bodyObject))) with
    | error e =>
      rw [if_neg (by simp)] at h
      simp only [hs] at h
      exact absurd h (by simp)
    | ok sig =>
      rw [if_neg (by simp)] at h
      simp only [hs] at h
      rw [Except.ok.injEq] at h
      subst h
      cases bodyObject with
      | none => exact ⟨Or.inl rfl, hs, rfl, rfl, rfl, rfl, rfl, rfl, rfl, rfl⟩
      | some o => exact ⟨Or.inl rfl, hs, rfl, rfl, rfl, rfl, rfl, rfl, rfl, rfl⟩

/-- C5: in every request sent, the `body_sha256_b64` embedded in the signed
canonical message is the digest of exactly the transmitted body bytes (the
serialization is computed once and reused for both digest and body); when
the body object is absent, the digest is that of the empty string and no
body is transmitted. -/
theorem request_digest_matches_transmitted_body {α : Type} {c : TrustbookEsignClient}
    {sdkLoadOk : Bool} {sdkSign : String → Except String String}
    {sha256b64 : String → String} {stringify : α → String}
    {nowMs : Nat} {uuid method apiPath : String} {bodyObject : Option α}
    {out : RequestOutcome}
    (h : c.request sdkLoadOk sdkSign sha256b64 stringify nowMs uuid method apiPath
      bodyObject = Except.ok out) :
    out.bodySha256 = sha256b64 ((out.sent.body).getD "") ∧
    out.message = buildMb2Message out.ts out.nonce c.agentName method apiPath
      (sha256b64 ((out.sent.body).getD "")) ∧
    (bodyObject = none → out.sent.body = none ∧ out.bodySha256 = sha256b64 "") ∧
    (∀ o, bodyObject = some o → out.sent.body = some (stringify o)) := by
  obtain ⟨_, _, _, _, hsha, hmsg, _, _, hbody, _⟩ := request_ok_inv h
  have hstored : (out.sent.body).getD "" = jsBodyText stringify bodyObject := by
    rw [hbody]
    cases bodyObject <;> simp [jsBodyText]
  refine ⟨?_, ?_, ?_, ?_⟩
  · rw [hstored, hsha]
  · rw [hstored, ← hsha]
    exact hmsg
  · intro hnone
    subst hnone
    exact ⟨by simpa using hbody, by simpa [jsBodyText] using hsha⟩
  · intro o ho
    subst ho
    simpa [jsBodyText] using hbody

/-- C6: `ts` is derived from the clock value at call time and the nonce is
the freshly generated UUID of that call; calls with distinct UUIDs carry
distinct nonces.  (The interface of `request` takes no `ts`/`nonce`
argument at all: both are bound inside the call.) -/
theorem request_generates_ts_and_nonce {α β : Type}
    {c₁ c₂ : TrustbookEsignClient} {lo₁ lo₂ : Bool}
    {sg₁ sg₂ : String → Except String String} {sh₁ sh₂ : String → String}
    {st₁ : α → String} {st₂ : β → String}
    {nowMs₁ nowMs₂ : Nat} {uuid₁ uuid₂ method₁ method₂ apiPath₁ apiPath₂ : String}
    {b₁ : Option α} {b₂ : Option β} {out₁ out₂ : RequestOutcome}
    (h₁ : c₁.request lo₁ sg₁ sh₁ st₁ nowMs₁ uuid₁ method₁ apiPath₁ b₁ = Except.ok out₁)
    (h₂ : c₂.request lo₂ sg₂ sh₂ st₂ nowMs₂ uuid₂ method₂ apiPath₂ b₂ = Except.ok out₂) :
    out₁.ts = toString (nowMs₁ / 1000) ∧ out₁.nonce = uuid₁ ∧
    out₂.ts = toString (nowMs₂ / 1000) ∧ out₂.nonce = uuid₂ ∧
    (uuid₁ ≠ uuid₂ → out₁.nonce ≠ out₂.nonce) := by
  obtain ⟨_, _, hts₁, hn₁, _⟩ := request_ok_inv h₁
  obtain ⟨_, _, hts₂, hn₂, _⟩ := request_ok_inv h₂
  refine ⟨hts₁, hn₁, hts₂, hn₂, ?_⟩
  intro hne
  rw [hn₁, hn₂]
  exact hne

/-- C7: the `X-MB-Signature-Ts` header of every signed request is exactly
the `ts` of the signed canonical message, and `X-MB-Signature-Nonce` is
exactly its nonce. -/
theorem request_headers_match_canonical_message {α : Type} {c : TrustbookEsignClient}
    {sdkLoadOk : Bool} {sdkSign : String → Except String String}
    {sha256b64 : String → String} {stringify : α → String}
    {nowMs : Nat} {uuid method apiPath : String} {bodyObject : Option α}
    {out : RequestOutcome}
    (h : c.request sdkLoadOk sdkSign sha256b64 stringify nowMs uuid method apiPath
      bodyObject = Except.ok out) :
    out.sent.headers.lookup "X-MB-Signature-Ts" = some out.ts ∧
    out.sent.headers.lookup "X-MB-Signature-Nonce" = some out.nonce ∧
    out.message = buildMb2Message out.ts out.nonce c.agentName method apiPath
      out.bodySha256 := by
  obtain ⟨_, _, _, _, _, hmsg, _, _, _, hhdrs⟩ := request_ok_inv h
  rw [hhdrs]
  refine ⟨?_, ?_, hmsg⟩ <;> simp [List.lookup]

/-- C8: if the signing identity cannot be loaded (`sdk.load` returns
`false` on an unloaded client) or the signing call throws, `request` raises
an error before any HTTP request is issued; an outgoing request
(`RequestOutcome`) exists only when both the identity load and the signing
call succeeded — no unsigned request is ever sent. -/
theorem request_aborts_before_http {α : Type} (c : TrustbookEsignClient)
    (sdkLoadOk : Bool) (sdkSign : String → Except String String)
    (sha256b64 : String → String) (stringify : α → String)
    (nowMs : Nat) (uuid method apiPath : String) (bodyObject : Option α) :
    (c.loaded = false → sdkLoadOk = false →
      c.request sdkLoadOk sdkSign sha256b64 stringify nowMs uuid method apiPath bodyObject =
        Except.error ("未找到本地凭证，agentId=" ++ c.agentId ++
          "。请先完成证书导入并确保证书文件/私钥都能被 sdk.load(agentId) 找到。")) ∧
    (∀ e, sdkSign (buildMb2Message (toString (nowMs / 1000)) uuid c.agentName method apiPath
        (sha256b64 (jsBodyText stringify bodyObject))) = Except.error e →
      ∀ out, c.request sdkLoadOk sdkSign sha256b64 stringify nowMs uuid method apiPath
        bodyObject ≠ Except.ok out) ∧
    (∀ out, c.request sdkLoadOk sdkSign sha256b64 stringify nowMs uuid method apiPath
        bodyObject = Except.ok out →
      (c.loaded = true ∨ sdkLoadOk = true) ∧ sdkSign out.message = Except.ok out.signature) := by
  refine ⟨?_, ?_, ?_⟩
  · intro hl hlo
    rw [TrustbookEsignClient.request, hl, hlo]
    rfl
  · intro e he out hout
    obtain ⟨_, hsig, hts, hn, hsha, hmsg, _⟩ := request_ok_inv hout
    rw [hmsg, hts, hn, hsha, he] at hsig
    exact absurd hsig (by simp)
  · intro out hout
    obtain ⟨hl, hsig, _⟩ := request_ok_inv hout
    exact ⟨hl, hsig⟩

/-- Concrete client used by the witnesses: configuration as produced by a
successful constructor call, with the identity already loaded. -/
def sampleClient : TrustbookEsignClient :=
  { baseUrl := "http://h", apiKey := "k", agentId := "a1", agentName := "Alice",
    signatureAlg := "rsa-v1_5-sha256", loaded := true }

/-- The canonical message of the witnesses' sample call. -/
def sampleSignedMessage : String := "MB2\n5\nu1\nAlice\nPOST\n/p\nd0\n"

/-- The outgoing request of the witnesses' sample call (clock 5000 ms,
UUID `u1`, digest function constantly `d0`, signing function identity,
`POST /p` with body text `b1`). -/
def sampleOutcome : RequestOutcome :=
  { ts := "5", nonce := "u1", bodySha256 := "d0",
    message := sampleSignedMessage, signature := sampleSignedMessage,
    sent := { method := "POST", url := "http://h/p",
              headers := [("Authorization", "Bearer k"),
                          ("X-MB-Signature", sampleSignedMessage),
                          ("X-MB-Signature-Alg", "rsa-v1_5-sha256"),
                          ("X-MB-Signature-Ts", "5"),
                          ("X-MB-Signature-Nonce", "u1"),
                          ("Content-Type", "application/json")],
              body := some "b1" } }

/-- The sample call evaluates to the sample outcome. -/
theorem sampleRequest_eq :
    sampleClient.request true (fun m => Except.ok m) (fun _ => "d0") (fun s : String => s)
      5000 "u1" "POST" "/p" (some "b1") = Except.ok sampleOutcome := rfl

/-- Outcome of a second sample call, identical except for UUID `u2`. -/
def sampleOutcome2 : RequestOutcome :=
  { ts := "5", nonce := "u2", bodySha256 := "d0",
    message := "MB2\n5\nu2\nAlice\nPOST\n/p\nd0\n",
    signature := "MB2\n5\nu2\nAlice\nPOST\n/p\nd0\n",
    sent := { method := "POST", url := "http://h/p",
              headers := [("Authorization", "Bearer k"),
                          ("X-MB-Signature", "MB2\n5\nu2\nAlice\nPOST\n/p\nd0\n"),
                          ("X-MB-Signature-Alg", "rsa-v1_5-sha256"),
                          ("X-MB-Signature-Ts", "5"),
                          ("X-MB-Signature-Nonce", "u2"),
                          ("Content-Type", "application/json")],
              body := some "b1" } }

/-- The second sample call evaluates to the second sample outcome. -/
theorem sampleRequest2_eq :
    sampleClient.request true (fun m => Except.ok m) (fun _ => "d0") (fun s : String => s)
      5000 "u2" "POST" "/p" (some "b1") = Except.ok sampleOutcome2 := rfl

/-- C5 witness: the digest/transmission theorem evaluated on the sample
call. -/
theorem request_digest_matches_transmitted_body_witness :
    sampleOutcome.bodySha256 = "d0" ∧ sampleOutcome.sent.body = some "b1" :=
  ⟨(request_digest_matches_transmitted_body sampleRequest_eq).1,
   (request_digest_matches_transmitted_body sampleRequest_eq).2.2.2 "b1" rfl⟩

/-- C6 witness: the ts/nonce-generation theorem evaluated on the two sample
calls with distinct UUIDs. -/
theorem request_generates_ts_and_nonce_witness :
    sampleOutcome.nonce ≠ sampleOutcome2.nonce :=
  (request_generates_ts_and_nonce sampleRequest_eq sampleRequest2_eq).2.2.2.2 (by decide)

/-- C7 witness: the header-consistency theorem evaluated on the sample
call. -/
theorem request_headers_match_canonical_message_witness :
    sampleOutcome.sent.headers.lookup "X-MB-Signature-Ts" = some sampleOutcome.ts ∧
    sampleOutcome.sent.headers.lookup "X-MB-Signature-Nonce" = some sampleOutcome.nonce :=
  ⟨(request_headers_match_canonical_message sampleRequest_eq).1,
   (request_headers_match_canonical_message sampleRequest_eq).2.1⟩

/-- Sample client before its identity is loaded. -/
def sampleClientUnloaded : TrustbookEsignClient :=
  { baseUrl := "http://h", apiKey := "k", agentId := "a1", agentName := "Alice",
    signatureAlg := "rsa-v1_5-sha256", loaded := false }

/-- C8 witness: with the identity not loaded and `sdk.load` answering
`false`, the sample call aborts with the load error and issues no
request. -/
theorem request_aborts_before_http_witness :
    sampleClientUnloaded.request false (fun m => Except.ok m) (fun _ => "d0")
      (fun s : String => s) 5000 "u1" "POST" "/p" (some "b1") =
      Except.error ("未找到本地凭证，agentId=a1。请先完成证书导入并确保证书文件/私钥都能被 sdk.load(agentId) 找到。") :=
  (request_aborts_before_http sampleClientUnloaded false (fun m => Except.ok m)
    (fun _ => "d0") (fun s : String => s) 5000 "u1" "POST" "/p" (some "b1")).1 rfl rfl

/-- Modelled from the spec: the verification statuses of §4.3 (the
server-side Verifier / Status Resolver is not among the repository's source
files). -/
inductive SigStatus where
  | unsigned
  | no_cert
  | cert_not_yet_valid
  | cert_expired
  | invalid
  | verified

deriving instance DecidableEq for SigStatus

/-- Modelled from the spec: the registered certificate consulted by the
verifier — bound owner identity, validity window and public key (public
keys are idealized as abstract identifiers, since the cryptographic
primitive itself is external to the protocol logic). -/
structure Certificate where
  ownerName : String
  notBefore : Nat
  notAfter : Nat
  pubKey : Nat

deriving instance DecidableEq for Certificate

/-- Modelled from the spec: the signing envelope (§3) retained alongside a
stored action — `ts`, `nonce`, algorithm identifier, signature and the body
digest. -/
structure Envelope where
  ts : String
  nonce : String
  alg : String
  signature : String
  bodySha : String

deriving instance DecidableEq for Envelope

/-- Modelled from the spec: the Verifier / Status Resolver of §4.3, absent
from the repository's source files.  A pure function of
(envelope-or-absent, stored action, certificate-or-absent, clock),
evaluated in the spec's tie-break order: envelope presence, certificate
presence, validity window, then digest/owner/signature checks, then
`verified`.  `sigVerify` abstracts the cryptographic verification primitive
over an idealized public key; the replay/freshness window is an explicitly
unspecified design parameter in the spec (§4.3) and is not part of the
state machine modelled here. -/
def verify (sha256b64 : String → String) (sigVerify : Nat → String → String → Bool)
    (envelope : Option Envelope)
    (storedAgentName storedMethod storedPath storedBody : String)
    (certificate : Option Certificate) (now : Nat) : SigStatus :=
  match envelope with
  | none => SigStatus.unsigned
  | some env =>
    match certificate with
    | none => SigStatus.no_cert
    | some cert =>
      if now < cert.notBefore then SigStatus.cert_not_yet_valid
      else if cert.notAfter < now then SigStatus.cert_expired
      else
        let digest := sha256b64 storedBody
        let msg := buildMb2Message env.ts env.nonce storedAgentName storedMethod
          storedPath digest
        if digest ≠ env.bodySha then SigStatus.invalid
        else if cert.ownerName ≠ storedAgentName then SigStatus.invalid
        else if sigVerify cert.pubKey msg env.signature = false then SigStatus.invalid
        else SigStatus.verified

/-- C2 round-trip: for any inputs and a keypair whose verification accepts
exactly what its signing half produced (`hkey`), verifying the untouched
stored action against the envelope emitted by `TrustbookEsignClient.request`
— with the signer's certificate bound to the client's agent name and valid
at verification time — yields `verified`. -/
theorem verify_sign_roundTrip {α : Type} {c : TrustbookEsignClient}
    {sdkLoadOk : Bool} {sdkSignFun : String → String}
    {sha256b64 : String → String} {stringify : α → String}
    {nowMs : Nat} {uuid method apiPath : String} {bodyObject : Option α}
    {out : RequestOutcome}
    (sigVerify : Nat → String → String → Bool) (cert : Certificate) (now : Nat)
    (hkey : ∀ m, sigVerify cert.pubKey m (sdkSignFun m) = true)
    (hown : cert.ownerName = c.agentName)
    (hnb : cert.notBefore ≤ now) (hna : now ≤ cert.notAfter)
    (h : c.request sdkLoadOk (fun m => Except.ok (sdkSignFun m)) sha256b64 stringify nowMs
      uuid method apiPath bodyObject = Except.ok out) :
    verify sha256b64 sigVerify
      (some { ts := out.ts, nonce := out.nonce, alg := c.signatureAlg,
              signature := out.signature, bodySha := out.bodySha256 })
      c.agentName method apiPath ((out.sent.body).getD "")
      (some cert) now = SigStatus.verified := by
  obtain ⟨_, hsig, hts, hn, hsha, hmsg, _, _, hbody, _⟩ := request_ok_inv h
  have hsig' : out.signature = sdkSignFun out.message := by
    simpa using hsig.symm
  have hstored : (out.sent.body).getD "" = jsBodyText stringify bodyObject := by
    rw [hbody]
    cases bodyObject <;> simp [jsBodyText]
  simp only [verify]
  rw [if_neg (Nat.not_lt.mpr hnb), if_neg (Nat.not_lt.mpr hna)]
  rw [hstored, ← hsha]
  rw [if_neg (by simp)]
  rw [if_neg (by simp [hown])]
  rw [← hmsg, hsig']
  rw [if_neg (by simp [hkey])]

/-- C2 witness: the round trip evaluated on the sample call, with identity
signing, equality-checking verification, a digest function constantly `d0`
and a certificate for `Alice` valid on the window 0..10 at time 5. -/
theorem verify_sign_roundTrip_witness :
    verify (fun _ => "d0") (fun _ m s => m == s)
      (some { ts := "5", nonce := "u1", alg := "rsa-v1_5-sha256",
              signature := "MB2\n5\nu1\nAlice\nPOST\n/p\nd0\n", bodySha := "d0" })
      "Alice" "POST" "/p" "b1"
      (some { ownerName := "Alice", notBefore := 0, notAfter := 10, pubKey := 0 }) 5 =
      SigStatus.verified :=
  verify_sign_roundTrip (fun _ m s => m == s)
    { ownerName := "Alice", notBefore := 0, notAfter := 10, pubKey := 0 } 5
    (fun m => by simp) rfl (by decide) (by decide) sampleRequest_eq

/-- JS falsiness of an optional string argument characterized: a value is
truthy exactly when it is present and non-empty. -/
theorem jsFalsy_false_iff (v : Option String) :
    jsFalsy v = false ↔ ∃ s, v = some s ∧ s ≠ "" := by
  cases v with
  | none => simp [jsFalsy]
  | some s => simp [jsFalsy]

/-- C10: the `TrustbookEsignClient` constructor throws whenever any of
`baseUrl`, `apiKey`, `agentId` or `agentName` is empty or absent (that
validation runs before the `resolveEsignModule()` call, so the error is the
same for every module-resolution outcome); construction succeeds exactly
when all four fields are present and non-empty and the `esign-agent-trust`
module resolves; consequently every constructed client has a non-empty
agent name, and every canonical message built through such a client via
`request` carries that non-empty `agent_name`. -/
theorem mkClient_validates (resolveEsign : Except String Unit)
    (baseUrl apiKey agentId agentName : Option String) (alg : String) :
    ((jsFalsy baseUrl = true ∨ jsFalsy apiKey = true ∨ jsFalsy agentId = true ∨
        jsFalsy agentName = true) →
      mkTrustbookEsignClient resolveEsign baseUrl apiKey agentId agentName alg =
        Except.error "baseUrl/apiKey/agentId/agentName 不能为空") ∧
    ((∃ cl, mkTrustbookEsignClient resolveEsign baseUrl apiKey agentId agentName alg =
        Except.ok cl) ↔
      ((∃ s, baseUrl = some s ∧ s ≠ "") ∧ (∃ s, apiKey = some s ∧ s ≠ "") ∧
       (∃ s, agentId = some s ∧ s ≠ "") ∧ (∃ s, agentName = some s ∧ s ≠ "") ∧
       resolveEsign = Except.ok ())) ∧
    (∀ cl, mkTrustbookEsignClient resolveEsign baseUrl apiKey agentId agentName alg =
        Except.ok cl →
      cl.agentName ≠ "" ∧
      (∀ {α : Type} (sdkLoadOk : Bool) (sdkSign : String → Except String String)
        (sha256b64 : String → String) (stringify : α → String) (nowMs : Nat)
        (uuid method apiPath : String) (bodyObject : Option α) (out : RequestOutcome),
        cl.request sdkLoadOk sdkSign sha256b64 stringify nowMs uuid method apiPath
          bodyObject = Except.ok out →
        out.message =
          buildMb2Message out.ts out.nonce cl.agentName method apiPath out.bodySha256 ∧
        cl.agentName ≠ "")) := by
  by_cases hc : (jsFalsy baseUrl || jsFalsy apiKey || jsFalsy agentId ||
      jsFalsy agentName) = true
  · refine ⟨?_, ?_, ?_⟩
    · intro _
      rw [mkTrustbookEsignClient.eq_def, if_pos hc]
    · constructor
      · rintro ⟨cl, hcl⟩
        rw [mkTrustbookEsignClient.eq_def, if_pos hc] at hcl
        exact absurd hcl (by simp)
      · rintro ⟨h1, h2, h3, h4, _⟩
        exfalso
        have g1 : jsFalsy baseUrl = false := (jsFalsy_false_iff _).2 h1
        have g2 : jsFalsy apiKey = false := (jsFalsy_false_iff _).2 h2
        have g3 : jsFalsy agentId = false := (jsFalsy_false_iff _).2 h3
        have g4 : jsFalsy agentName = false := (jsFalsy_false_iff _).2 h4
        rw [g1, g2, g3, g4] at hc
        simp at hc
    · intro cl hcl
      exfalso
      rw [mkTrustbookEsignClient.eq_def, if_pos hc] at hcl
      exact absurd hcl (by simp)
  · have hsplit : jsFalsy baseUrl = false ∧ jsFalsy apiKey = false ∧
        jsFalsy agentId = false ∧ jsFalsy agentName = false := by
      constructor
      · cases hb : jsFalsy baseUrl
        · rfl
        · exfalso; rw [hb] at hc; simp at hc
      constructor
      · cases hb : jsFalsy apiKey
        · rfl
        · exfalso; rw [hb] at hc; simp at hc
      constructor
      · cases hb : jsFalsy agentId
        · rfl
        · exfalso; rw [hb] at hc; simp at hc
      · cases hb : jsFalsy agentName
        · rfl
        · exfalso; rw [hb] at hc; simp at hc
    obtain ⟨g1, g2, g3, g4⟩ := hsplit
    obtain ⟨sName, hsName, hsNe⟩ := (jsFalsy_false_iff _).1 g4
    refine ⟨?_, ?_, ?_⟩
    · intro h
      exfalso
      rcases h with h | h | h | h
      · rw [h] at g1; exact Bool.noConfusion g1
      · rw [h] at g2; exact Bool.noConfusion g2
      · rw [h] at g3; exact Bool.noConfusion g3
      · rw [h] at g4; exact Bool.noConfusion g4
    · constructor
      · rintro ⟨cl, hcl⟩
        rw [mkTrustbookEsignClient.eq_def, if_neg hc] at hcl
        cases hres : resolveEsign with
        | error e =>
          rw [hres] at hcl
          exact absurd hcl (by simp)
        | ok u =>
          cases u
          exact ⟨(jsFalsy_false_iff _).1 g1, (jsFalsy_false_iff _).1 g2,
            (jsFalsy_false_iff _).1 g3, (jsFalsy_false_iff _).1 g4, rfl⟩
      · rintro ⟨_, _, _, _, hres⟩
        subst hres
        exact ⟨{ baseUrl := stripTrailingSlashes (baseUrl.getD ""), apiKey := apiKey.getD "",
                 agentId := agentId.getD "", agentName := agentName.getD "",
                 signatureAlg := alg, loaded := false },
               by rw [mkTrustbookEsignClient.eq_def, if_neg hc]⟩
    · intro cl hcl
      rw [mkTrustbookEsignClient.eq_def, if_neg hc] at hcl
      cases hres : resolveEsign with
      | error e =>
        exfalso
        rw [hres] at hcl
        exact absurd hcl (by simp)
      | ok u =>
        cases u
        rw [hres] at hcl
        have hcl2 : Except.ok ({ baseUrl := stripTrailingSlashes (baseUrl.getD ""),
                                 apiKey := apiKey.getD "", agentId := agentId.getD "",
                                 agentName := agentName.getD "", signatureAlg := alg,
                                 loaded := false } : TrustbookEsignClient) = Except.ok cl := hcl
        rw [Except.ok.injEq] at hcl2
        subst hcl2
        have hAgent : (agentName.getD "") = sName := by
          rw [hsName]
          rfl
        constructor
        · show (agentName.getD "") ≠ ""
          rw [hAgent]
          exact hsNe
        · intro α sdkLoadOk sdkSign sha256b64 stringify nowMs uuid method apiPath
            bodyObject out hout
          obtain ⟨_, _, _, _, _, hmsg, _⟩ := request_ok_inv hout
          refine ⟨hmsg, ?_⟩
          show (agentName.getD "") ≠ ""
          rw [hAgent]
          exact hsNe

/-- C10 witness: a concrete successful construction (module resolution
succeeding) has the non-empty agent name `Alice`, and a concrete call with
an empty `agentName` gets the validation error. -/
theorem mkClient_validates_witness :
    ("Alice" : String) ≠ "" ∧
    mkTrustbookEsignClient (Except.ok ()) (some "http://h") (some "k") (some "a1")
      (some "") "rsa-v1_5-sha256" =
      Except.error "baseUrl/apiKey/agentId/agentName 不能为空" :=
  ⟨((mkClient_validates (Except.ok ()) (some "http://h/") (some "k") (some "a1")
      (some "Alice") "rsa-v1_5-sha256").2.2
    { baseUrl := "http://h", apiKey := "k", agentId := "a1", agentName := "Alice",
      signatureAlg := "rsa-v1_5-sha256", loaded := false } rfl).1,
   (mkClient_validates (Except.ok ()) (some "http://h") (some "k") (some "a1")
      (some "") "rsa-v1_5-sha256").1 (Or.inr (Or.inr (Or.inr rfl)))⟩
